import Mathlib

/-!
Account service query handlers.

A shallow embedding of `service/account/api/api.go`: the six gin handlers
`GetBillingHistoryNamespaceList`, `GetProperties`, `GetConsumptionAmount`,
`GetRechargeAmount`, `GetPropertiesUsedAmount` and `GetCosts`.

A handler talks to three collaborators that live outside the file: the request
parsers and authentication checks of package `helper`, and the store client
`dao.DBClient`.  They are taken as parameters (`World`).  A handler is a program
in the monad `Gin`, whose state is the log of everything the handler did, in
order: each call to a collaborator together with what it returned, and each
`c.JSON` write.  Go's early `return` is the early `return` of the `do` block.
-/

deriving instance DecidableEq for Except

/-! ## Values -/

namespace http

/-- Status code `http.StatusOK`. -/
abbrev StatusOK : Nat := 200
/-- Status code `http.StatusBadRequest`. -/
abbrev StatusBadRequest : Nat := 400
/-- Status code `http.StatusUnauthorized`. -/
abbrev StatusUnauthorized : Nat := 401
/-- Status code `http.StatusInternalServerError`. -/
abbrev StatusInternalServerError : Nat := 500

end http

namespace common

/-- Modelled from the spec: the type `common.TimeCostsMap` is declared outside the
source shown; the spec describes it as a mapping from a time bucket key to a
mapping property to amount.  The handlers never look inside it. -/
abbrev TimeCostsMap := List (Int × List (String × Int))

/-- Modelled from the spec: one entry of the property catalog (name and unit);
its declaration is outside the source shown and the handlers never look inside. -/
structure Property where
  Name : String
  Unit : String
  deriving DecidableEq, Repr

end common

namespace helper

/-- Modelled from the spec: `helper.Auth` is declared outside the source shown;
the spec gives it an owner and a credential.  The source reads `Auth.Owner`. -/
structure Auth where
  Owner : String
  Credential : String
  deriving DecidableEq, Repr

/-- Modelled from the spec: the time range of a request; its declaration is
outside the source shown.  The source reads `StartTime` and `EndTime`; the spec
lets either bound be unset, which is `none` here.  Instants are integers. -/
structure TimeRange where
  StartTime : Option Int
  EndTime : Option Int
  deriving DecidableEq, Repr

/-- Modelled from the spec: `helper.NamespaceBillingHistoryReq`, declared outside
the source shown: a credential and filters.  The source reads `Auth` and hands
the whole request to the store. -/
structure NamespaceBillingHistoryReq where
  Auth : Auth
  Filters : List String
  deriving DecidableEq, Repr

/-- Modelled from the spec: `helper.UserCostsAmountReq`, declared outside the
source shown.  The source reads `Auth`, `Owner` and `TimeRange`. -/
structure UserCostsAmountReq where
  Auth : Auth
  Owner : String
  TimeRange : TimeRange
  deriving DecidableEq, Repr

/-- Modelled from the spec: `helper.ErrorMessage`, declared outside the source
shown; the source fills its one field `Error`. -/
structure ErrorMessage where
  Error : String
  deriving DecidableEq, Repr

/-- Modelled from the spec: `helper.NamespaceBillingHistoryRespData`, declared
outside the source shown; the source fills its one field `List`. -/
structure NamespaceBillingHistoryRespData where
  List : List String
  deriving DecidableEq, Repr

/-- Modelled from the spec: `helper.NamespaceBillingHistoryResp`, declared outside
the source shown; the source fills `Data` and `Message`. -/
structure NamespaceBillingHistoryResp where
  Data : NamespaceBillingHistoryRespData
  Message : String
  deriving DecidableEq, Repr

/-- Modelled from the spec: `helper.GetPropertiesRespData`, declared outside the
source shown; the source fills its one field `Properties`. -/
structure GetPropertiesRespData where
  Properties : List common.Property
  deriving DecidableEq, Repr

/-- Modelled from the spec: `helper.GetPropertiesResp`, declared outside the
source shown; the source fills `Data` and `Message`. -/
structure GetPropertiesResp where
  Data : GetPropertiesRespData
  Message : String
  deriving DecidableEq, Repr

end helper

namespace fmt

/-- The text `fmt.Sprintf` builds in `api.go`.  Every format there is a literal
text followed by one trailing `%v` whose operand is an error, printed as its
message: `Sprintf lead err` stands for `fmt.Sprintf(lead + "%v", err)`. -/
def Sprintf (lead : String) (err : String) : String := lead ++ err

/-- A Go `error` value made by `fmt.Errorf(format)` without operands.  Only the
format it was made from is kept. -/
structure Error where
  format : String
  deriving DecidableEq, Repr

/-- The call `fmt.Errorf(format)`. -/
def Errorf (format : String) : Error := ⟨format⟩

end fmt

namespace gin

/-- A value stored in a `gin.H` map by `api.go`: a string or an integer amount. -/
inductive Any
  | string (s : String)
  | int (n : Int)
  deriving DecidableEq, Repr

/-- The map literal `gin.H`, as its key/value pairs. -/
abbrev H := List (String × Any)

/-- Modelled from the spec: a timestamp field of the raw inbound request: absent,
present but not a valid instant, or a valid instant. -/
inductive RawTime
  | absent
  | malformed
  | instant (t : Int)
  deriving DecidableEq, Repr

/-- The inbound side of `*gin.Context`: the raw request.  Modelled from the spec:
a credential, a requested owner, a time range and filters, none validated yet.
The handlers never read it themselves; they hand it to the parsers and to
`AuthenticateWithBind`. -/
structure Context where
  Auth : helper.Auth
  Owner : String
  StartTime : RawTime
  EndTime : RawTime
  Filters : List String
  deriving DecidableEq, Repr

end gin

namespace api

/-- Source: `type CostsResultData struct` (json tag `costs`). -/
structure CostsResultData where
  Costs : common.TimeCostsMap
  deriving DecidableEq, Repr

/-- Source: `type CostsResult struct` (json tags `data` and `message`). -/
structure CostsResult where
  Data : CostsResultData
  Message : String
  deriving DecidableEq, Repr

end api

/-- The values `api.go` passes as the `obj` argument of `c.JSON`. -/
inductive Obj
  | ErrorMessage (v : helper.ErrorMessage)
  | NamespaceBillingHistoryResp (v : helper.NamespaceBillingHistoryResp)
  | GetPropertiesResp (v : helper.GetPropertiesResp)
  | CostsResult (v : api.CostsResult)
  | H (v : gin.H)
  | error (v : fmt.Error)
  deriving DecidableEq, Repr

/-- What a store operation hands back besides its error: a namespace list, the
property catalog, an amount, or a costs map. -/
inductive Payload
  | List (l : List String)
  | Properties (p : List common.Property)
  | Amount (n : Int)
  | Costs (m : common.TimeCostsMap)
  deriving DecidableEq, Repr

/-- A top-level field value of the JSON object written for an `Obj`: a string, a
number, or the nested data object around a payload. -/
inductive JSONField
  | string (s : String)
  | number (n : Int)
  | nested (p : Payload)
  deriving DecidableEq, Repr

/-- The top-level JSON object `c.JSON` renders for an `Obj`, as key/value pairs.
`api.CostsResult` has the json tags `data` and `message` in the source.
Modelled from the spec: the json tags of the `helper` response types, declared
outside the source shown, are `data`, `message` and `error`.  A Go error value
made by `fmt.Errorf` has no exported field, so it renders as the empty object. -/
def Obj.envelope : Obj → List (String × JSONField)
  | .ErrorMessage v => [("error", .string v.Error)]
  | .NamespaceBillingHistoryResp v => [("data", .nested (.List v.Data.List)), ("message", .string v.Message)]
  | .GetPropertiesResp v => [("data", .nested (.Properties v.Data.Properties)), ("message", .string v.Message)]
  | .CostsResult v => [("data", .nested (.Costs v.Data.Costs)), ("message", .string v.Message)]
  | .H v => v.map fun kv => (kv.1, match kv.2 with | .string s => JSONField.string s | .int n => JSONField.number n)
  | .error _ => []

namespace dao

/-- A call on `dao.DBClient` with its arguments. -/
inductive Call
  | GetBillingHistoryNamespaceList (req : helper.NamespaceBillingHistoryReq)
  | GetProperties
  | GetConsumptionAmount (owner : String) (startTime endTime : Option Int)
  | GetRechargeAmount (owner : String) (startTime endTime : Option Int)
  | GetPropertiesUsedAmount (owner : String) (startTime endTime : Option Int)
  | GetCosts (owner : String) (startTime endTime : Option Int)
  deriving DecidableEq, Repr

/-- The store client behind `dao.DBClient`: each operation returns a value and an
error (`none` is Go's `nil`), as the Go methods do. -/
structure Interface where
  GetBillingHistoryNamespaceList : helper.NamespaceBillingHistoryReq → List String × Option String
  GetProperties : List common.Property × Option String
  GetConsumptionAmount : String → Option Int → Option Int → Int × Option String
  GetRechargeAmount : String → Option Int → Option Int → Int × Option String
  GetPropertiesUsedAmount : String → Option Int → Option Int → Int × Option String
  GetCosts : String → Option Int → Option Int → common.TimeCostsMap × Option String

end dao

/-- The collaborators of the handlers: the parsers and authentication checks of
package `helper` and the store client.  An error is its message; `none` is `nil`. -/
structure World where
  ParseNamespaceBillingHistoryReq : gin.Context → Except String helper.NamespaceBillingHistoryReq
  ParseUserCostsAmountReq : gin.Context → Except String helper.UserCostsAmountReq
  Authenticate : helper.Auth → Option String
  AuthenticateWithBind : gin.Context → Option String
  DBClient : dao.Interface

/-! ## The log of a handler run -/

/-- One step a handler takes: a call to a collaborator with what it returned, or
a response written with `c.JSON`. -/
inductive Event
  | ParseNamespaceBillingHistoryReq (ret : Except String helper.NamespaceBillingHistoryReq)
  | ParseUserCostsAmountReq (ret : Except String helper.UserCostsAmountReq)
  | Authenticate (auth : helper.Auth) (err : Option String)
  | AuthenticateWithBind (err : Option String)
  | DBClient (call : dao.Call) (ret : Payload) (err : Option String)
  | JSON (code : Nat) (obj : Obj)
  deriving DecidableEq, Repr

/-- Handler programs: state is the log so far. -/
abbrev Gin := StateM (List Event)

/-- Append one step to the log. -/
def Gin.emit (e : Event) : Gin Unit := modify fun log => log ++ [e]

/-- The method `c.JSON(code, obj)`: writes a response. -/
def gin.Context.JSON (_c : gin.Context) (code : Nat) (obj : Obj) : Gin Unit :=
  Gin.emit (.JSON code obj)

namespace helper

/-- The call `helper.ParseNamespaceBillingHistoryReq(c)`. -/
def ParseNamespaceBillingHistoryReq (w : World) (c : gin.Context) :
    Gin (Except String NamespaceBillingHistoryReq) := do
  Gin.emit (.ParseNamespaceBillingHistoryReq (w.ParseNamespaceBillingHistoryReq c))
  return w.ParseNamespaceBillingHistoryReq c

/-- The call `helper.ParseUserCostsAmountReq(c)`. -/
def ParseUserCostsAmountReq (w : World) (c : gin.Context) :
    Gin (Except String UserCostsAmountReq) := do
  Gin.emit (.ParseUserCostsAmountReq (w.ParseUserCostsAmountReq c))
  return w.ParseUserCostsAmountReq c

/-- The call `helper.Authenticate(auth)`. -/
def Authenticate (w : World) (auth : Auth) : Gin (Option String) := do
  Gin.emit (.Authenticate auth (w.Authenticate auth))
  return w.Authenticate auth

/-- The call `helper.AuthenticateWithBind(c)`. -/
def AuthenticateWithBind (w : World) (c : gin.Context) : Gin (Option String) := do
  Gin.emit (.AuthenticateWithBind (w.AuthenticateWithBind c))
  return w.AuthenticateWithBind c

end helper

namespace dao.DBClient

/-- The call `dao.DBClient.GetBillingHistoryNamespaceList(req)`. -/
def GetBillingHistoryNamespaceList (w : World) (req : helper.NamespaceBillingHistoryReq) :
    Gin (List String × Option String) := do
  let r := w.DBClient.GetBillingHistoryNamespaceList req
  Gin.emit (.DBClient (.GetBillingHistoryNamespaceList req) (.List r.1) r.2)
  return r

/-- The call `dao.DBClient.GetProperties()`. -/
def GetProperties (w : World) : Gin (List common.Property × Option String) := do
  let r := w.DBClient.GetProperties
  Gin.emit (.DBClient .GetProperties (.Properties r.1) r.2)
  return r

/-- The call `dao.DBClient.GetConsumptionAmount(owner, start, end)`. -/
def GetConsumptionAmount (w : World) (owner : String) (startTime endTime : Option Int) :
    Gin (Int × Option String) := do
  let r := w.DBClient.GetConsumptionAmount owner startTime endTime
  Gin.emit (.DBClient (.GetConsumptionAmount owner startTime endTime) (.Amount r.1) r.2)
  return r

/-- The call `dao.DBClient.GetRechargeAmount(owner, start, end)`. -/
def GetRechargeAmount (w : World) (owner : String) (startTime endTime : Option Int) :
    Gin (Int × Option String) := do
  let r := w.DBClient.GetRechargeAmount owner startTime endTime
  Gin.emit (.DBClient (.GetRechargeAmount owner startTime endTime) (.Amount r.1) r.2)
  return r

/-- The call `dao.DBClient.GetPropertiesUsedAmount(owner, start, end)`. -/
def GetPropertiesUsedAmount (w : World) (owner : String) (startTime endTime : Option Int) :
    Gin (Int × Option String) := do
  let r := w.DBClient.GetPropertiesUsedAmount owner startTime endTime
  Gin.emit (.DBClient (.GetPropertiesUsedAmount owner startTime endTime) (.Amount r.1) r.2)
  return r

/-- The call `dao.DBClient.GetCosts(owner, start, end)`. -/
def GetCosts (w : World) (owner : String) (startTime endTime : Option Int) :
    Gin (common.TimeCostsMap × Option String) := do
  let r := w.DBClient.GetCosts owner startTime endTime
  Gin.emit (.DBClient (.GetCosts owner startTime endTime) (.Costs r.1) r.2)
  return r

end dao.DBClient

/-! ## The handlers of `api.go` -/

namespace api

/-- Source: `func GetBillingHistoryNamespaceList(c *gin.Context)`. -/
def GetBillingHistoryNamespaceList (w : World) (c : gin.Context) : Gin Unit := do
  -- Parse the namespace billing history request
  match ← helper.ParseNamespaceBillingHistoryReq w c with
  | .error err =>
    c.JSON http.StatusBadRequest (.ErrorMessage { Error := fmt.Sprintf "failed to parse namespace billing history request: " err })
    return
  | .ok req =>
  if let some err ← helper.Authenticate w req.Auth then
    c.JSON http.StatusUnauthorized (.ErrorMessage { Error := fmt.Sprintf "authenticate error : " err })
    return
  -- Get the billing history namespace list from the database
  let (nsList, err) ← dao.DBClient.GetBillingHistoryNamespaceList w req
  if let some err := err then
    c.JSON http.StatusInternalServerError (.ErrorMessage { Error := fmt.Sprintf "failed to get namespace billing history list: " err })
    return
  c.JSON http.StatusOK (.NamespaceBillingHistoryResp {
    Data := { List := nsList },
    Message := "successfully retrieved namespace billing history list" })

/-- Source: `func GetProperties(c *gin.Context)`. -/
def GetProperties (w : World) (c : gin.Context) : Gin Unit := do
  if let some err ← helper.AuthenticateWithBind w c then
    c.JSON http.StatusUnauthorized (.ErrorMessage { Error := fmt.Sprintf "authenticate error : " err })
    return
  -- Get the properties from the database
  let (properties, err) ← dao.DBClient.GetProperties w
  if let some err := err then
    c.JSON http.StatusInternalServerError (.error (fmt.Errorf (fmt.Sprintf "failed to get properties: " err)))
    return
  c.JSON http.StatusOK (.GetPropertiesResp {
    Data := { Properties := properties },
    Message := "successfully retrieved properties" })

/-- Source: `func GetConsumptionAmount(c *gin.Context)`.  The block under
`if err != nil` after the store call has no `return`. -/
def GetConsumptionAmount (w : World) (c : gin.Context) : Gin Unit := do
  match ← helper.ParseUserCostsAmountReq w c with
  | .error err =>
    c.JSON http.StatusBadRequest (.H [("error", .string (fmt.Sprintf "failed to parse user consumption amount request: " err))])
    return
  | .ok req =>
  if let some err ← helper.Authenticate w req.Auth then
    c.JSON http.StatusUnauthorized (.H [("error", .string (fmt.Sprintf "authenticate error : " err))])
    return
  let (amount, err) ← dao.DBClient.GetConsumptionAmount w req.Owner req.TimeRange.StartTime req.TimeRange.EndTime
  if let some err := err then
    c.JSON http.StatusInternalServerError (.H [("error", .string (fmt.Sprintf "failed to get consumption amount : " err))])
  c.JSON http.StatusOK (.H [("amount", .int amount)])

/-- Source: `func GetRechargeAmount(c *gin.Context)`.  The block under
`if err != nil` after the store call has no `return`. -/
def GetRechargeAmount (w : World) (c : gin.Context) : Gin Unit := do
  match ← helper.ParseUserCostsAmountReq w c with
  | .error err =>
    c.JSON http.StatusBadRequest (.H [("error", .string (fmt.Sprintf "failed to parse user recharge amount request: " err))])
    return
  | .ok req =>
  if let some err ← helper.Authenticate w req.Auth then
    c.JSON http.StatusUnauthorized (.H [("error", .string (fmt.Sprintf "authenticate error : " err))])
    return
  let (amount, err) ← dao.DBClient.GetRechargeAmount w req.Owner req.TimeRange.StartTime req.TimeRange.EndTime
  if let some err := err then
    c.JSON http.StatusInternalServerError (.H [("error", .string (fmt.Sprintf "failed to get recharge amount : " err))])
  c.JSON http.StatusOK (.H [("amount", .int amount)])

/-- Source: `func GetPropertiesUsedAmount(c *gin.Context)`.  The block under
`if err != nil` after the store call has no `return`. -/
def GetPropertiesUsedAmount (w : World) (c : gin.Context) : Gin Unit := do
  match ← helper.ParseUserCostsAmountReq w c with
  | .error err =>
    c.JSON http.StatusBadRequest (.H [("error", .string (fmt.Sprintf "failed to parse user properties used amount request: " err))])
    return
  | .ok req =>
  if let some err ← helper.Authenticate w req.Auth then
    c.JSON http.StatusUnauthorized (.H [("error", .string (fmt.Sprintf "authenticate error : " err))])
    return
  let (amount, err) ← dao.DBClient.GetPropertiesUsedAmount w req.Owner req.TimeRange.StartTime req.TimeRange.EndTime
  if let some err := err then
    c.JSON http.StatusInternalServerError (.H [("error", .string (fmt.Sprintf "failed to get properties used amount : " err))])
  c.JSON http.StatusOK (.H [("amount", .int amount)])

/-- Source: `func GetCosts(c *gin.Context)`.  The store is asked for
`req.Auth.Owner`; the block under `if err != nil` after the store call has no
`return`. -/
def GetCosts (w : World) (c : gin.Context) : Gin Unit := do
  match ← helper.ParseUserCostsAmountReq w c with
  | .error err =>
    c.JSON http.StatusBadRequest (.H [("error", .string (fmt.Sprintf "failed to parse user hour costs amount request: " err))])
    return
  | .ok req =>
  if let some err ← helper.Authenticate w req.Auth then
    c.JSON http.StatusUnauthorized (.H [("error", .string (fmt.Sprintf "authenticate error : " err))])
    return
  let (costs, err) ← dao.DBClient.GetCosts w req.Auth.Owner req.TimeRange.StartTime req.TimeRange.EndTime
  if let some err := err then
    c.JSON http.StatusInternalServerError (.H [("error", .string (fmt.Sprintf "failed to get cost : " err))])
  c.JSON http.StatusOK (.CostsResult {
    Data := { Costs := costs },
    Message := "successfully retrieved user costs" })

end api

/-- The six handlers of `api.go`, by name. -/
inductive Handler
  | GetBillingHistoryNamespaceList
  | GetProperties
  | GetConsumptionAmount
  | GetRechargeAmount
  | GetPropertiesUsedAmount
  | GetCosts
  deriving DecidableEq, Repr

/-- The program of a handler. -/
def Handler.run : Handler → World → gin.Context → Gin Unit
  | .GetBillingHistoryNamespaceList => api.GetBillingHistoryNamespaceList
  | .GetProperties => api.GetProperties
  | .GetConsumptionAmount => api.GetConsumptionAmount
  | .GetRechargeAmount => api.GetRechargeAmount
  | .GetPropertiesUsedAmount => api.GetPropertiesUsedAmount
  | .GetCosts => api.GetCosts

/-- The log of one run of a handler on a request, from the empty log. -/
def Handler.log (h : Handler) (w : World) (c : gin.Context) : List Event :=
  ((h.run w c).run []).2

/-- The responses written in a log, in order: status code and body. -/
def responses (log : List Event) : List (Nat × Obj) :=
  log.filterMap fun e => match e with
    | .JSON code obj => some (code, obj)
    | _ => none

/-- The store calls made in a log, in order. -/
def storeCalls (log : List Event) : List dao.Call :=
  log.filterMap fun e => match e with
    | .DBClient call _ _ => some call
    | _ => none

/-- The authentication checks made in a log, in order, with their results. -/
def authChecks (log : List Event) : List (Option String) :=
  log.filterMap fun e => match e with
    | .Authenticate _ err => some err
    | .AuthenticateWithBind err => some err
    | _ => none

/-- Is this step a store call. -/
def Event.isStoreCall : Event → Bool
  | .DBClient _ _ _ => true
  | _ => false

/-- Is this step an authentication check that returned no error. -/
def Event.isAuthSuccess : Event → Bool
  | .Authenticate _ none => true
  | .AuthenticateWithBind none => true
  | _ => false

/-- Reading a log from its start: no store call is met before a successful
authentication check. -/
def storeAfterAuth : List Event → Bool
  | [] => true
  | ev :: rest => ev.isAuthSuccess || (!ev.isStoreCall && storeAfterAuth rest)

/-- The time range a store call carries, if it takes one. -/
def dao.Call.timeRange : dao.Call → Option (Option Int × Option Int)
  | .GetBillingHistoryNamespaceList _ => none
  | .GetProperties => none
  | .GetConsumptionAmount _ s e => some (s, e)
  | .GetRechargeAmount _ s e => some (s, e)
  | .GetPropertiesUsedAmount _ s e => some (s, e)
  | .GetCosts _ s e => some (s, e)

/-! ## The request parser, from the spec -/

/-- The instant of a raw timestamp that is present and valid. -/
def gin.RawTime.toOption : gin.RawTime → Option Int
  | .instant t => some t
  | _ => none

namespace spec

/-- Modelled from the spec: `helper.ParseUserCostsAmountReq` is not part of the
source shown, only its callers are.  Spec 4.1: given raw input, produce
`UserCostsAmountRequest` (auth, owner, timeRange) or fail with BadRequest naming
the first invalid field; the owner must be non-empty; timestamps must parse as
valid instants; if both start and end are present, reject when start > end.
The error is the name of the first invalid field. -/
def ParseUserCostsAmountReq (c : gin.Context) : Except String helper.UserCostsAmountReq :=
  if c.Owner = "" then .error "owner"
  else if c.StartTime = .malformed then .error "start"
  else if c.EndTime = .malformed then .error "end"
  else
    match c.StartTime, c.EndTime with
    | .instant s, .instant e =>
      if s > e then .error "timeRange"
      else .ok { Auth := c.Auth, Owner := c.Owner, TimeRange := { StartTime := some s, EndTime := some e } }
    | s, e =>
      .ok { Auth := c.Auth, Owner := c.Owner, TimeRange := { StartTime := s.toOption, EndTime := e.toOption } }

end spec

/-- The same collaborators, with the parser of user costs requests as the spec
describes it. -/
def World.withSpecParser (w : World) : World :=
  { w with ParseUserCostsAmountReq := spec.ParseUserCostsAmountReq }

/-! ## Sample collaborators and requests -/

/-- A store with fixed answers and an error on every operation when `err` is set. -/
def sampleStore (amount : Int) (err : Option String) : dao.Interface where
  GetBillingHistoryNamespaceList := fun _ => (["ns-alice"], err)
  GetProperties := ([⟨"cpu", "core"⟩], err)
  GetConsumptionAmount := fun _ _ _ => (amount, err)
  GetRechargeAmount := fun _ _ _ => (amount, err)
  GetPropertiesUsedAmount := fun _ _ _ => (amount, err)
  GetCosts := fun _ _ _ => ([(0, [("cpu", amount)])], err)

/-- A raw request: credential of alice, requested owner, raw time range. -/
def sampleContext (owner : String) (s e : gin.RawTime) : gin.Context :=
  { Auth := ⟨"alice", "token"⟩, Owner := owner, StartTime := s, EndTime := e, Filters := [] }

/-- Collaborators that take the request as it comes: the parsers copy the raw
fields (an absent or malformed bound becomes unset) or fail with `parseErr`, the
checks answer `authErr`, the store is `sampleStore amount storeErr`. -/
def sampleWorld (parseErr authErr storeErr : Option String) (amount : Int) : World where
  ParseNamespaceBillingHistoryReq := fun c =>
    match parseErr with
    | some e => .error e
    | none => .ok { Auth := c.Auth, Filters := c.Filters }
  ParseUserCostsAmountReq := fun c =>
    match parseErr with
    | some e => .error e
    | none => .ok { Auth := c.Auth, Owner := c.Owner, TimeRange := {
        StartTime := match c.StartTime with | .instant t => some t | _ => none,
        EndTime := match c.EndTime with | .instant t => some t | _ => none } }
  Authenticate := fun _ => authErr
  AuthenticateWithBind := fun _ => authErr
  DBClient := sampleStore amount storeErr


/-! ## The log of each handler, by cases -/

/-- The log of `GetBillingHistoryNamespaceList`, spelled out by the outcome of each call. -/
theorem Handler.log_GetBillingHistoryNamespaceList (w : World) (c : gin.Context) :
    Handler.log .GetBillingHistoryNamespaceList w c =
      .ParseNamespaceBillingHistoryReq (w.ParseNamespaceBillingHistoryReq c) ::
      match w.ParseNamespaceBillingHistoryReq c with
      | .error err =>
        [.JSON 400 (.ErrorMessage ⟨"failed to parse namespace billing history request: " ++ err⟩)]
      | .ok req =>
        .Authenticate req.Auth (w.Authenticate req.Auth) ::
        match w.Authenticate req.Auth with
        | some err => [.JSON 401 (.ErrorMessage ⟨"authenticate error : " ++ err⟩)]
        | none =>
          .DBClient (.GetBillingHistoryNamespaceList req)
              (.List (w.DBClient.GetBillingHistoryNamespaceList req).1)
              (w.DBClient.GetBillingHistoryNamespaceList req).2 ::
          match (w.DBClient.GetBillingHistoryNamespaceList req).2 with
          | some err =>
            [.JSON 500 (.ErrorMessage ⟨"failed to get namespace billing history list: " ++ err⟩)]
          | none =>
            [.JSON 200 (.NamespaceBillingHistoryResp
              ⟨⟨(w.DBClient.GetBillingHistoryNamespaceList req).1⟩,
                "successfully retrieved namespace billing history list"⟩)] := by
  cases hp : w.ParseNamespaceBillingHistoryReq c with
  | error e => simp [Handler.log, Handler.run, api.GetBillingHistoryNamespaceList, helper.ParseNamespaceBillingHistoryReq, helper.Authenticate, dao.DBClient.GetBillingHistoryNamespaceList, gin.Context.JSON, Gin.emit, fmt.Sprintf, fmt.Errorf, StateT.run, bind, StateT.bind, modify, modifyGet, MonadStateOf.modifyGet, StateT.modifyGet, pure, StateT.pure, hp]
  | ok req =>
    cases ha : w.Authenticate req.Auth with
    | some e => simp [Handler.log, Handler.run, api.GetBillingHistoryNamespaceList, helper.ParseNamespaceBillingHistoryReq, helper.Authenticate, dao.DBClient.GetBillingHistoryNamespaceList, gin.Context.JSON, Gin.emit, fmt.Sprintf, fmt.Errorf, StateT.run, bind, StateT.bind, modify, modifyGet, MonadStateOf.modifyGet, StateT.modifyGet, pure, StateT.pure, hp, ha]
    | none =>
      cases hd : (w.DBClient.GetBillingHistoryNamespaceList req).2 <;>
        simp [Handler.log, Handler.run, api.GetBillingHistoryNamespaceList, helper.ParseNamespaceBillingHistoryReq, helper.Authenticate, dao.DBClient.GetBillingHistoryNamespaceList, gin.Context.JSON, Gin.emit, fmt.Sprintf, fmt.Errorf, StateT.run, bind, StateT.bind, modify, modifyGet, MonadStateOf.modifyGet, StateT.modifyGet, pure, StateT.pure, hp, ha, hd]

/-- The log of `GetProperties`, spelled out by the outcome of each call. -/
theorem Handler.log_GetProperties (w : World) (c : gin.Context) :
    Handler.log .GetProperties w c =
      .AuthenticateWithBind (w.AuthenticateWithBind c) ::
      match w.AuthenticateWithBind c with
      | some err => [.JSON 401 (.ErrorMessage ⟨"authenticate error : " ++ err⟩)]
      | none =>
        .DBClient .GetProperties (.Properties w.DBClient.GetProperties.1) w.DBClient.GetProperties.2 ::
        match w.DBClient.GetProperties.2 with
        | some err => [.JSON 500 (.error ⟨"failed to get properties: " ++ err⟩)]
        | none =>
          [.JSON 200 (.GetPropertiesResp
            ⟨⟨w.DBClient.GetProperties.1⟩, "successfully retrieved properties"⟩)] := by
  cases ha : w.AuthenticateWithBind c with
  | some e => simp [Handler.log, Handler.run, api.GetProperties, helper.AuthenticateWithBind, helper.AuthenticateWithBind, dao.DBClient.GetProperties, gin.Context.JSON, Gin.emit, fmt.Sprintf, fmt.Errorf, StateT.run, bind, StateT.bind, modify, modifyGet, MonadStateOf.modifyGet, StateT.modifyGet, pure, StateT.pure, ha]
  | none =>
    cases hd : w.DBClient.GetProperties.2 <;>
      simp [Handler.log, Handler.run, api.GetProperties, helper.AuthenticateWithBind, helper.AuthenticateWithBind, dao.DBClient.GetProperties, gin.Context.JSON, Gin.emit, fmt.Sprintf, fmt.Errorf, StateT.run, bind, StateT.bind, modify, modifyGet, MonadStateOf.modifyGet, StateT.modifyGet, pure, StateT.pure, ha, hd]

/-- The log of `GetConsumptionAmount`, spelled out by the outcome of each call. -/
theorem Handler.log_GetConsumptionAmount (w : World) (c : gin.Context) :
    Handler.log .GetConsumptionAmount w c =
      .ParseUserCostsAmountReq (w.ParseUserCostsAmountReq c) ::
      match w.ParseUserCostsAmountReq c with
      | .error err =>
        [.JSON 400 (.H [("error", .string ("failed to parse user consumption amount request: " ++ err))])]
      | .ok req =>
        .Authenticate req.Auth (w.Authenticate req.Auth) ::
        match w.Authenticate req.Auth with
        | some err => [.JSON 401 (.H [("error", .string ("authenticate error : " ++ err))])]
        | none =>
          .DBClient (.GetConsumptionAmount req.Owner req.TimeRange.StartTime req.TimeRange.EndTime)
              (.Amount (w.DBClient.GetConsumptionAmount req.Owner req.TimeRange.StartTime req.TimeRange.EndTime).1) (w.DBClient.GetConsumptionAmount req.Owner req.TimeRange.StartTime req.TimeRange.EndTime).2 ::
          match (w.DBClient.GetConsumptionAmount req.Owner req.TimeRange.StartTime req.TimeRange.EndTime).2 with
          | some err =>
            [.JSON 500 (.H [("error", .string ("failed to get consumption amount : " ++ err))]),
             .JSON 200 (.H [("amount", .int (w.DBClient.GetConsumptionAmount req.Owner req.TimeRange.StartTime req.TimeRange.EndTime).1)])]
          | none => [.JSON 200 (.H [("amount", .int (w.DBClient.GetConsumptionAmount req.Owner req.TimeRange.StartTime req.TimeRange.EndTime).1)])] := by
  cases hp : w.ParseUserCostsAmountReq c with
  | error e => simp [Handler.log, Handler.run, api.GetConsumptionAmount, helper.ParseUserCostsAmountReq, helper.Authenticate, dao.DBClient.GetConsumptionAmount, gin.Context.JSON, Gin.emit, fmt.Sprintf, fmt.Errorf, StateT.run, bind, StateT.bind, modify, modifyGet, MonadStateOf.modifyGet, StateT.modifyGet, pure, StateT.pure, hp]
  | ok req =>
    cases ha : w.Authenticate req.Auth with
    | some e => simp [Handler.log, Handler.run, api.GetConsumptionAmount, helper.ParseUserCostsAmountReq, helper.Authenticate, dao.DBClient.GetConsumptionAmount, gin.Context.JSON, Gin.emit, fmt.Sprintf, fmt.Errorf, StateT.run, bind, StateT.bind, modify, modifyGet, MonadStateOf.modifyGet, StateT.modifyGet, pure, StateT.pure, hp, ha]
    | none =>
      cases hd : (w.DBClient.GetConsumptionAmount req.Owner req.TimeRange.StartTime req.TimeRange.EndTime).2 <;>
        simp [Handler.log, Handler.run, api.GetConsumptionAmount, helper.ParseUserCostsAmountReq, helper.Authenticate, dao.DBClient.GetConsumptionAmount, gin.Context.JSON, Gin.emit, fmt.Sprintf, fmt.Errorf, StateT.run, bind, StateT.bind, modify, modifyGet, MonadStateOf.modifyGet, StateT.modifyGet, pure, StateT.pure, hp, ha, hd]

/-- The log of `GetRechargeAmount`, spelled out by the outcome of each call. -/
theorem Handler.log_GetRechargeAmount (w : World) (c : gin.Context) :
    Handler.log .GetRechargeAmount w c =
      .ParseUserCostsAmountReq (w.ParseUserCostsAmountReq c) ::
      match w.ParseUserCostsAmountReq c with
      | .error err =>
        [.JSON 400 (.H [("error", .string ("failed to parse user recharge amount request: " ++ err))])]
      | .ok req =>
        .Authenticate req.Auth (w.Authenticate req.Auth) ::
        match w.Authenticate req.Auth with
        | some err => [.JSON 401 (.H [("error", .string ("authenticate error : " ++ err))])]
        | none =>
          .DBClient (.GetRechargeAmount req.Owner req.TimeRange.StartTime req.TimeRange.EndTime)
              (.Amount (w.DBClient.GetRechargeAmount req.Owner req.TimeRange.StartTime req.TimeRange.EndTime).1) (w.DBClient.GetRechargeAmount req.Owner req.TimeRange.StartTime req.TimeRange.EndTime).2 ::
          match (w.DBClient.GetRechargeAmount req.Owner req.TimeRange.StartTime req.TimeRange.EndTime).2 with
          | some err =>
            [.JSON 500 (.H [("error", .string ("failed to get recharge amount : " ++ err))]),
             .JSON 200 (.H [("amount", .int (w.DBClient.GetRechargeAmount req.Owner req.TimeRange.StartTime req.TimeRange.EndTime).1)])]
          | none => [.JSON 200 (.H [("amount", .int (w.DBClient.GetRechargeAmount req.Owner req.TimeRange.StartTime req.TimeRange.EndTime).1)])] := by
  cases hp : w.ParseUserCostsAmountReq c with
  | error e => simp [Handler.log, Handler.run, api.GetRechargeAmount, helper.ParseUserCostsAmountReq, helper.Authenticate, dao.DBClient.GetRechargeAmount, gin.Context.JSON, Gin.emit, fmt.Sprintf, fmt.Errorf, StateT.run, bind, StateT.bind, modify, modifyGet, MonadStateOf.modifyGet, StateT.modifyGet, pure, StateT.pure, hp]
  | ok req =>
    cases ha : w.Authenticate req.Auth with
    | some e => simp [Handler.log, Handler.run, api.GetRechargeAmount, helper.ParseUserCostsAmountReq, helper.Authenticate, dao.DBClient.GetRechargeAmount, gin.Context.JSON, Gin.emit, fmt.Sprintf, fmt.Errorf, StateT.run, bind, StateT.bind, modify, modifyGet, MonadStateOf.modifyGet, StateT.modifyGet, pure, StateT.pure, hp, ha]
    | none =>
      cases hd : (w.DBClient.GetRechargeAmount req.Owner req.TimeRange.StartTime req.TimeRange.EndTime).2 <;>
        simp [Handler.log, Handler.run, api.GetRechargeAmount, helper.ParseUserCostsAmountReq, helper.Authenticate, dao.DBClient.GetRechargeAmount, gin.Context.JSON, Gin.emit, fmt.Sprintf, fmt.Errorf, StateT.run, bind, StateT.bind, modify, modifyGet, MonadStateOf.modifyGet, StateT.modifyGet, pure, StateT.pure, hp, ha, hd]

/-- The log of `GetPropertiesUsedAmount`, spelled out by the outcome of each call. -/
theorem Handler.log_GetPropertiesUsedAmount (w : World) (c : gin.Context) :
    Handler.log .GetPropertiesUsedAmount w c =
      .ParseUserCostsAmountReq (w.ParseUserCostsAmountReq c) ::
      match w.ParseUserCostsAmountReq c with
      | .error err =>
        [.JSON 400 (.H [("error", .string ("failed to parse user properties used amount request: " ++ err))])]
      | .ok req =>
        .Authenticate req.Auth (w.Authenticate req.Auth) ::
        match w.Authenticate req.Auth with
        | some err => [.JSON 401 (.H [("error", .string ("authenticate error : " ++ err))])]
        | none =>
          .DBClient (.GetPropertiesUsedAmount req.Owner req.TimeRange.StartTime req.TimeRange.EndTime)
              (.Amount (w.DBClient.GetPropertiesUsedAmount req.Owner req.TimeRange.StartTime req.TimeRange.EndTime).1) (w.DBClient.GetPropertiesUsedAmount req.Owner req.TimeRange.StartTime req.TimeRange.EndTime).2 ::
          match (w.DBClient.GetPropertiesUsedAmount req.Owner req.TimeRange.StartTime req.TimeRange.EndTime).2 with
          | some err =>
            [.JSON 500 (.H [("error", .string ("failed to get properties used amount : " ++ err))]),
             .JSON 200 (.H [("amount", .int (w.DBClient.GetPropertiesUsedAmount req.Owner req.TimeRange.StartTime req.TimeRange.EndTime).1)])]
          | none => [.JSON 200 (.H [("amount", .int (w.DBClient.GetPropertiesUsedAmount req.Owner req.TimeRange.StartTime req.TimeRange.EndTime).1)])] := by
  cases hp : w.ParseUserCostsAmountReq c with
  | error e => simp [Handler.log, Handler.run, api.GetPropertiesUsedAmount, helper.ParseUserCostsAmountReq, helper.Authenticate, dao.DBClient.GetPropertiesUsedAmount, gin.Context.JSON, Gin.emit, fmt.Sprintf, fmt.Errorf, StateT.run, bind, StateT.bind, modify, modifyGet, MonadStateOf.modifyGet, StateT.modifyGet, pure, StateT.pure, hp]
  | ok req =>
    cases ha : w.Authenticate req.Auth with
    | some e => simp [Handler.log, Handler.run, api.GetPropertiesUsedAmount, helper.ParseUserCostsAmountReq, helper.Authenticate, dao.DBClient.GetPropertiesUsedAmount, gin.Context.JSON, Gin.emit, fmt.Sprintf, fmt.Errorf, StateT.run, bind, StateT.bind, modify, modifyGet, MonadStateOf.modifyGet, StateT.modifyGet, pure, StateT.pure, hp, ha]
    | none =>
      cases hd : (w.DBClient.GetPropertiesUsedAmount req.Owner req.TimeRange.StartTime req.TimeRange.EndTime).2 <;>
        simp [Handler.log, Handler.run, api.GetPropertiesUsedAmount, helper.ParseUserCostsAmountReq, helper.Authenticate, dao.DBClient.GetPropertiesUsedAmount, gin.Context.JSON, Gin.emit, fmt.Sprintf, fmt.Errorf, StateT.run, bind, StateT.bind, modify, modifyGet, MonadStateOf.modifyGet, StateT.modifyGet, pure, StateT.pure, hp, ha, hd]

/-- The log of `GetCosts`, spelled out by the outcome of each call. -/
theorem Handler.log_GetCosts (w : World) (c : gin.Context) :
    Handler.log .GetCosts w c =
      .ParseUserCostsAmountReq (w.ParseUserCostsAmountReq c) ::
      match w.ParseUserCostsAmountReq c with
      | .error err =>
        [.JSON 400 (.H [("error", .string ("failed to parse user hour costs amount request: " ++ err))])]
      | .ok req =>
        .Authenticate req.Auth (w.Authenticate req.Auth) ::
        match w.Authenticate req.Auth with
        | some err => [.JSON 401 (.H [("error", .string ("authenticate error : " ++ err))])]
        | none =>
          .DBClient (.GetCosts req.Auth.Owner req.TimeRange.StartTime req.TimeRange.EndTime)
              (.Costs (w.DBClient.GetCosts req.Auth.Owner req.TimeRange.StartTime req.TimeRange.EndTime).1) (w.DBClient.GetCosts req.Auth.Owner req.TimeRange.StartTime req.TimeRange.EndTime).2 ::
          match (w.DBClient.GetCosts req.Auth.Owner req.TimeRange.StartTime req.TimeRange.EndTime).2 with
          | some err =>
            [.JSON 500 (.H [("error", .string ("failed to get cost : " ++ err))]),
             .JSON 200 (.CostsResult ⟨⟨(w.DBClient.GetCosts req.Auth.Owner req.TimeRange.StartTime req.TimeRange.EndTime).1⟩, "successfully retrieved user costs"⟩)]
          | none => [.JSON 200 (.CostsResult ⟨⟨(w.DBClient.GetCosts req.Auth.Owner req.TimeRange.StartTime req.TimeRange.EndTime).1⟩, "successfully retrieved user costs"⟩)] := by
  cases hp : w.ParseUserCostsAmountReq c with
  | error e => simp [Handler.log, Handler.run, api.GetCosts, helper.ParseUserCostsAmountReq, helper.Authenticate, dao.DBClient.GetCosts, gin.Context.JSON, Gin.emit, fmt.Sprintf, fmt.Errorf, StateT.run, bind, StateT.bind, modify, modifyGet, MonadStateOf.modifyGet, StateT.modifyGet, pure, StateT.pure, hp]
  | ok req =>
    cases ha : w.Authenticate req.Auth with
    | some e => simp [Handler.log, Handler.run, api.GetCosts, helper.ParseUserCostsAmountReq, helper.Authenticate, dao.DBClient.GetCosts, gin.Context.JSON, Gin.emit, fmt.Sprintf, fmt.Errorf, StateT.run, bind, StateT.bind, modify, modifyGet, MonadStateOf.modifyGet, StateT.modifyGet, pure, StateT.pure, hp, ha]
    | none =>
      cases hd : (w.DBClient.GetCosts req.Auth.Owner req.TimeRange.StartTime req.TimeRange.EndTime).2 <;>
        simp [Handler.log, Handler.run, api.GetCosts, helper.ParseUserCostsAmountReq, helper.Authenticate, dao.DBClient.GetCosts, gin.Context.JSON, Gin.emit, fmt.Sprintf, fmt.Errorf, StateT.run, bind, StateT.bind, modify, modifyGet, MonadStateOf.modifyGet, StateT.modifyGet, pure, StateT.pure, hp, ha, hd]

/-! ## Theorems -/

/-- C1: in each of the six handlers, when the authentication check the handler
runs on the request returns an error (`helper.AuthenticateWithBind` on the raw
request in `GetProperties`; `helper.Authenticate` on the credential of the parsed
request in the other five), the check is run once, exactly one response is
written, its status is 401 Unauthorized, its body is an error body carrying the
error, and no store operation is invoked. -/
theorem auth_error_unauthorized (h : Handler) (w : World) (c : gin.Context) (err : String)
    (hauth : match h with
      | .GetProperties => w.AuthenticateWithBind c = some err
      | .GetBillingHistoryNamespaceList =>
        ∃ req, w.ParseNamespaceBillingHistoryReq c = .ok req ∧ w.Authenticate req.Auth = some err
      | _ => ∃ req, w.ParseUserCostsAmountReq c = .ok req ∧ w.Authenticate req.Auth = some err) :
    (∃ obj, responses (h.log w c) = [(http.StatusUnauthorized, obj)] ∧
      obj.envelope = [("error", .string ("authenticate error : " ++ err))]) ∧
    authChecks (h.log w c) = [some err] ∧
    storeCalls (h.log w c) = [] := by
  cases h
  case GetProperties =>
    simp only at hauth
    simp [Handler.log_GetProperties, hauth, responses, authChecks, storeCalls, Obj.envelope]
  case GetBillingHistoryNamespaceList =>
    obtain ⟨req, hp, ha⟩ := hauth
    simp [Handler.log_GetBillingHistoryNamespaceList, hp, ha, responses, authChecks, storeCalls,
      Obj.envelope]
  case GetConsumptionAmount =>
    obtain ⟨req, hp, ha⟩ := hauth
    simp [Handler.log_GetConsumptionAmount, hp, ha, responses, authChecks, storeCalls, Obj.envelope]
  case GetRechargeAmount =>
    obtain ⟨req, hp, ha⟩ := hauth
    simp [Handler.log_GetRechargeAmount, hp, ha, responses, authChecks, storeCalls, Obj.envelope]
  case GetPropertiesUsedAmount =>
    obtain ⟨req, hp, ha⟩ := hauth
    simp [Handler.log_GetPropertiesUsedAmount, hp, ha, responses, authChecks, storeCalls,
      Obj.envelope]
  case GetCosts =>
    obtain ⟨req, hp, ha⟩ := hauth
    simp [Handler.log_GetCosts, hp, ha, responses, authChecks, storeCalls, Obj.envelope]

/-- C1, at a sample request: alice's credential is rejected in
`GetConsumptionAmount`. -/
theorem auth_error_unauthorized_witness :
    (∃ req, (sampleWorld none (some "bad token") none 0).ParseUserCostsAmountReq
        (sampleContext "alice" .absent .absent) = .ok req ∧
      (sampleWorld none (some "bad token") none 0).Authenticate req.Auth = some "bad token") ∧
    ((∃ obj, responses (Handler.log .GetConsumptionAmount
        (sampleWorld none (some "bad token") none 0) (sampleContext "alice" .absent .absent))
          = [(http.StatusUnauthorized, obj)] ∧
      obj.envelope = [("error", .string ("authenticate error : " ++ "bad token"))]) ∧
    authChecks (Handler.log .GetConsumptionAmount
        (sampleWorld none (some "bad token") none 0) (sampleContext "alice" .absent .absent))
      = [some "bad token"] ∧
    storeCalls (Handler.log .GetConsumptionAmount
        (sampleWorld none (some "bad token") none 0) (sampleContext "alice" .absent .absent)) = []) :=
  ⟨⟨⟨⟨"alice", "token"⟩, "alice", ⟨none, none⟩⟩, by decide, by decide⟩,
    auth_error_unauthorized .GetConsumptionAmount (sampleWorld none (some "bad token") none 0)
      (sampleContext "alice" .absent .absent) "bad token"
      ⟨⟨⟨"alice", "token"⟩, "alice", ⟨none, none⟩⟩, by decide, by decide⟩⟩

/-- C2: in each of the five handlers that parse a request, when the parser the
handler runs on the request (`helper.ParseNamespaceBillingHistoryReq` in
`GetBillingHistoryNamespaceList`, `helper.ParseUserCostsAmountReq` in the other
four) returns an error, exactly one response is written, its status is 400
BadRequest, its body is an error body carrying the error, and neither an
authentication check nor a store operation is invoked. -/
theorem parse_error_bad_request (h : Handler) (w : World) (c : gin.Context) (err : String)
    (hparse : match h with
      | .GetProperties => False
      | .GetBillingHistoryNamespaceList => w.ParseNamespaceBillingHistoryReq c = .error err
      | _ => w.ParseUserCostsAmountReq c = .error err) :
    (∃ obj lead, responses (h.log w c) = [(http.StatusBadRequest, obj)] ∧
      obj.envelope = [("error", .string (lead ++ err))]) ∧
    authChecks (h.log w c) = [] ∧ storeCalls (h.log w c) = [] := by
  cases h
  case GetProperties => exact hparse.elim
  case GetBillingHistoryNamespaceList =>
    simp only at hparse
    simp only [Handler.log_GetBillingHistoryNamespaceList, hparse]
    exact ⟨⟨_, _, rfl, rfl⟩, rfl, rfl⟩
  case GetConsumptionAmount =>
    simp only at hparse
    simp only [Handler.log_GetConsumptionAmount, hparse]
    exact ⟨⟨_, _, rfl, rfl⟩, rfl, rfl⟩
  case GetRechargeAmount =>
    simp only at hparse
    simp only [Handler.log_GetRechargeAmount, hparse]
    exact ⟨⟨_, _, rfl, rfl⟩, rfl, rfl⟩
  case GetPropertiesUsedAmount =>
    simp only at hparse
    simp only [Handler.log_GetPropertiesUsedAmount, hparse]
    exact ⟨⟨_, _, rfl, rfl⟩, rfl, rfl⟩
  case GetCosts =>
    simp only at hparse
    simp only [Handler.log_GetCosts, hparse]
    exact ⟨⟨_, _, rfl, rfl⟩, rfl, rfl⟩

/-- C2, at a sample request: the body of a `GetCosts` request does not parse. -/
theorem parse_error_bad_request_witness :
    (sampleWorld (some "bind json") none none 0).ParseUserCostsAmountReq
        (sampleContext "alice" .absent .absent) = .error "bind json" ∧
    ((∃ obj lead, responses (Handler.log .GetCosts
        (sampleWorld (some "bind json") none none 0) (sampleContext "alice" .absent .absent))
          = [(http.StatusBadRequest, obj)] ∧
      obj.envelope = [("error", .string (lead ++ "bind json"))]) ∧
    authChecks (Handler.log .GetCosts
        (sampleWorld (some "bind json") none none 0) (sampleContext "alice" .absent .absent)) = [] ∧
    storeCalls (Handler.log .GetCosts
        (sampleWorld (some "bind json") none none 0) (sampleContext "alice" .absent .absent)) = []) :=
  ⟨by decide, parse_error_bad_request .GetCosts (sampleWorld (some "bind json") none none 0)
    (sampleContext "alice" .absent .absent) "bind json" (by decide)⟩

/-- C3 (the code at a failing input): the store fails with `down` on a request
that parses and authenticates.  Each of `GetConsumptionAmount`,
`GetRechargeAmount`, `GetPropertiesUsedAmount` and `GetCosts` writes the 500
error body and then, the error block having no `return`, also a 200 body with the
amount (here 0) or the costs map the store handed back. -/
theorem store_error_followed_by_ok_body :
    responses (Handler.log .GetConsumptionAmount (sampleWorld none none (some "down") 0)
        (sampleContext "alice" .absent .absent)) =
      [(500, .H [("error", .string "failed to get consumption amount : down")]),
       (200, .H [("amount", .int 0)])] ∧
    responses (Handler.log .GetRechargeAmount (sampleWorld none none (some "down") 0)
        (sampleContext "alice" .absent .absent)) =
      [(500, .H [("error", .string "failed to get recharge amount : down")]),
       (200, .H [("amount", .int 0)])] ∧
    responses (Handler.log .GetPropertiesUsedAmount (sampleWorld none none (some "down") 0)
        (sampleContext "alice" .absent .absent)) =
      [(500, .H [("error", .string "failed to get properties used amount : down")]),
       (200, .H [("amount", .int 0)])] ∧
    responses (Handler.log .GetCosts (sampleWorld none none (some "down") 0)
        (sampleContext "alice" .absent .absent)) =
      [(500, .H [("error", .string "failed to get cost : down")]),
       (200, .CostsResult ⟨⟨[(0, [("cpu", 0)])]⟩, "successfully retrieved user costs"⟩)] := by
  decide

/-- C4 (counterexample): alice's credential authenticates and the parsed request
names owner bob.  `GetConsumptionAmount` writes no 403 response: it asks the
store for bob and answers 200 with the amount. -/
theorem owner_mismatch_not_forbidden :
    Event.ParseUserCostsAmountReq (.ok ⟨⟨"alice", "token"⟩, "bob", ⟨some 1, some 2⟩⟩) ∈
      Handler.log .GetConsumptionAmount (sampleWorld none none none 7)
        (sampleContext "bob" (.instant 1) (.instant 2)) ∧
    Event.Authenticate ⟨"alice", "token"⟩ none ∈
      Handler.log .GetConsumptionAmount (sampleWorld none none none 7)
        (sampleContext "bob" (.instant 1) (.instant 2)) ∧
    responses (Handler.log .GetConsumptionAmount (sampleWorld none none none 7)
        (sampleContext "bob" (.instant 1) (.instant 2))) = [(200, .H [("amount", .int 7)])] ∧
    storeCalls (Handler.log .GetConsumptionAmount (sampleWorld none none none 7)
        (sampleContext "bob" (.instant 1) (.instant 2))) =
      [.GetConsumptionAmount "bob" (some 1) (some 2)] := by
  decide

/-- C4 (amended): in `GetConsumptionAmount`, `GetRechargeAmount` and
`GetPropertiesUsedAmount`, for every request that parses and whose credential
authenticates, whether or not `req.Owner` equals `req.Auth.Owner`: no response
with status 403 is written, and the store is queried exactly once, for
`req.Owner` with the request's start and end time. -/
theorem owner_field_queried_unchecked (w : World) (c : gin.Context)
    (req : helper.UserCostsAmountReq)
    (hparse : w.ParseUserCostsAmountReq c = .ok req)
    (hauth : w.Authenticate req.Auth = none) :
    (∀ h ∈ [Handler.GetConsumptionAmount, Handler.GetRechargeAmount, Handler.GetPropertiesUsedAmount],
      ∀ obj, (403, obj) ∉ responses (h.log w c)) ∧
    storeCalls (Handler.log .GetConsumptionAmount w c) =
      [.GetConsumptionAmount req.Owner req.TimeRange.StartTime req.TimeRange.EndTime] ∧
    storeCalls (Handler.log .GetRechargeAmount w c) =
      [.GetRechargeAmount req.Owner req.TimeRange.StartTime req.TimeRange.EndTime] ∧
    storeCalls (Handler.log .GetPropertiesUsedAmount w c) =
      [.GetPropertiesUsedAmount req.Owner req.TimeRange.StartTime req.TimeRange.EndTime] := by
  simp only [List.mem_cons, List.mem_singleton, List.not_mem_nil, or_false, forall_eq_or_imp, forall_eq,
    Handler.log_GetConsumptionAmount, Handler.log_GetRechargeAmount,
    Handler.log_GetPropertiesUsedAmount, hparse, hauth]
  refine ⟨⟨?_, ?_, ?_⟩, ?_, ?_, ?_⟩ <;> split <;> simp [responses, storeCalls]

/-- C4 (amended), at a sample request: alice's credential, requested owner bob. -/
theorem owner_field_queried_unchecked_witness :
    (sampleWorld none none none 7).ParseUserCostsAmountReq
        (sampleContext "bob" (.instant 1) (.instant 2)) =
      .ok ⟨⟨"alice", "token"⟩, "bob", ⟨some 1, some 2⟩⟩ ∧
    (sampleWorld none none none 7).Authenticate ⟨"alice", "token"⟩ = none ∧
    ((∀ h ∈ [Handler.GetConsumptionAmount, Handler.GetRechargeAmount, Handler.GetPropertiesUsedAmount],
      ∀ obj, (403, obj) ∉ responses (h.log (sampleWorld none none none 7)
        (sampleContext "bob" (.instant 1) (.instant 2)))) ∧
    storeCalls (Handler.log .GetConsumptionAmount (sampleWorld none none none 7)
        (sampleContext "bob" (.instant 1) (.instant 2))) =
      [.GetConsumptionAmount "bob" (some 1) (some 2)] ∧
    storeCalls (Handler.log .GetRechargeAmount (sampleWorld none none none 7)
        (sampleContext "bob" (.instant 1) (.instant 2))) =
      [.GetRechargeAmount "bob" (some 1) (some 2)] ∧
    storeCalls (Handler.log .GetPropertiesUsedAmount (sampleWorld none none none 7)
        (sampleContext "bob" (.instant 1) (.instant 2))) =
      [.GetPropertiesUsedAmount "bob" (some 1) (some 2)]) :=
  ⟨by decide, by decide,
    owner_field_queried_unchecked (sampleWorld none none none 7)
      (sampleContext "bob" (.instant 1) (.instant 2))
      ⟨⟨"alice", "token"⟩, "bob", ⟨some 1, some 2⟩⟩ (by decide) (by decide)⟩

/-- C6 (counterexample): the 200 response of `GetConsumptionAmount` is the object
with the single key `amount`; it has neither a `data` nor a `message` field. -/
theorem amount_response_not_enveloped :
    responses (Handler.log .GetConsumptionAmount (sampleWorld none none none 7)
        (sampleContext "alice" .absent .absent)) = [(200, .H [("amount", .int 7)])] ∧
    (Obj.H [("amount", .int 7)]).envelope = [("amount", .number 7)] ∧
    (Obj.H [("amount", .int 7)]).envelope.lookup "data" = none ∧
    (Obj.H [("amount", .int 7)]).envelope.lookup "message" = none := by
  decide

/-- C6 (amended): every response written with status 200 by
`GetBillingHistoryNamespaceList`, `GetProperties` or `GetCosts` is an object with
a `data` field holding the payload and a `message` string field; every response
written with status 200 by `GetConsumptionAmount`, `GetRechargeAmount` or
`GetPropertiesUsedAmount` is an object whose only field is the number `amount`. -/
theorem ok_response_shape (h : Handler) (w : World) (c : gin.Context) (obj : Obj)
    (hresp : (http.StatusOK, obj) ∈ responses (h.log w c)) :
    (h ∈ [Handler.GetBillingHistoryNamespaceList, Handler.GetProperties, Handler.GetCosts] →
      ∃ p msg, obj.envelope = [("data", .nested p), ("message", .string msg)]) ∧
    (h ∈ [Handler.GetConsumptionAmount, Handler.GetRechargeAmount, Handler.GetPropertiesUsedAmount] →
      ∃ n, obj.envelope = [("amount", .number n)]) := by
  cases h <;>
    simp only [Handler.log_GetBillingHistoryNamespaceList, Handler.log_GetProperties,
      Handler.log_GetConsumptionAmount, Handler.log_GetRechargeAmount,
      Handler.log_GetPropertiesUsedAmount, Handler.log_GetCosts] at hresp <;>
    (repeat' split at hresp) <;>
    simp_all [responses, Obj.envelope]

/-- C6 (amended), at a sample request: the 200 response of `GetCosts`. -/
theorem ok_response_shape_witness :
    (http.StatusOK, Obj.CostsResult ⟨⟨[(0, [("cpu", 7)])]⟩, "successfully retrieved user costs"⟩) ∈
      responses (Handler.log .GetCosts (sampleWorld none none none 7)
        (sampleContext "alice" .absent .absent)) ∧
    ((Handler.GetCosts ∈ [Handler.GetBillingHistoryNamespaceList, Handler.GetProperties, Handler.GetCosts] →
      ∃ p msg, (Obj.CostsResult ⟨⟨[(0, [("cpu", 7)])]⟩, "successfully retrieved user costs"⟩).envelope =
        [("data", .nested p), ("message", .string msg)]) ∧
    (Handler.GetCosts ∈ [Handler.GetConsumptionAmount, Handler.GetRechargeAmount, Handler.GetPropertiesUsedAmount] →
      ∃ n, (Obj.CostsResult ⟨⟨[(0, [("cpu", 7)])]⟩, "successfully retrieved user costs"⟩).envelope =
        [("amount", .number n)])) :=
  ⟨by decide, ok_response_shape .GetCosts (sampleWorld none none none 7)
    (sampleContext "alice" .absent .absent) _ (by decide)⟩

/-- C7 (the code at a failing input): the store fails with `down` in
`GetProperties`.  The 500 response carries the Go error value made by
`fmt.Errorf`, not an error message object: the written object has no field at
all, so no `error` string and no text of the cause. -/
theorem GetProperties_store_error_body :
    responses (Handler.log .GetProperties (sampleWorld none none (some "down") 0)
        (sampleContext "alice" .absent .absent)) =
      [(500, .error ⟨"failed to get properties: down"⟩)] ∧
    (Obj.error ⟨"failed to get properties: down"⟩).envelope = [] ∧
    (Obj.error ⟨"failed to get properties: down"⟩).envelope.lookup "error" = none := by
  decide

/-- A request the spec's parser accepts has its start no later than its end when
both are set. -/
theorem spec.ParseUserCostsAmountReq_ordered (c : gin.Context) (req : helper.UserCostsAmountReq)
    (hparse : spec.ParseUserCostsAmountReq c = .ok req) (s e : Int)
    (hs : req.TimeRange.StartTime = some s) (he : req.TimeRange.EndTime = some e) : s ≤ e := by
  unfold spec.ParseUserCostsAmountReq at hparse
  split_ifs at hparse
  split at hparse
  · split_ifs at hparse with hgt
    simp only [Except.ok.injEq] at hparse
    subst hparse
    simp only [Option.some.injEq] at hs he
    omega
  · rename_i s0 e0 hne
    simp only [Except.ok.injEq] at hparse
    subst hparse
    cases hs0 : c.StartTime <;> cases he0 : c.EndTime <;>
      simp_all [gin.RawTime.toOption]

/-- The spec's parser rejects a raw request whose start is later than its end. -/
theorem spec.ParseUserCostsAmountReq_rejects (c : gin.Context) (s e : Int)
    (hs : c.StartTime = .instant s) (he : c.EndTime = .instant e) (hlt : e < s) :
    ∃ err, spec.ParseUserCostsAmountReq c = .error err := by
  unfold spec.ParseUserCostsAmountReq
  split_ifs <;> simp_all

/-- C8: with the request parser the spec describes, in `GetConsumptionAmount`,
`GetRechargeAmount`, `GetPropertiesUsedAmount` and `GetCosts`: whenever the store
is queried with a start and an end, start <= end; and a request whose start is
later than its end is answered with the single response 400 BadRequest and never
reaches the store. -/
theorem time_range_ordered_at_store (h : Handler)
    (hh : h ∈ [Handler.GetConsumptionAmount, Handler.GetRechargeAmount,
      Handler.GetPropertiesUsedAmount, Handler.GetCosts])
    (w : World) (c : gin.Context) :
    (∀ call ∈ storeCalls (h.log w.withSpecParser c), ∀ s e,
      call.timeRange = some (some s, some e) → s ≤ e) ∧
    (∀ s e, c.StartTime = .instant s → c.EndTime = .instant e → e < s →
      (∃ obj, responses (h.log w.withSpecParser c) = [(http.StatusBadRequest, obj)]) ∧
      storeCalls (h.log w.withSpecParser c) = []) := by
  have hw : w.withSpecParser.ParseUserCostsAmountReq c = spec.ParseUserCostsAmountReq c := rfl
  constructor
  · intro call hcall s e hrange
    cases hp : spec.ParseUserCostsAmountReq c with
    | error err =>
      simp only [List.mem_cons, List.mem_singleton, List.not_mem_nil, or_false] at hh
      rcases hh with rfl | rfl | rfl | rfl <;>
        simp [Handler.log_GetConsumptionAmount, Handler.log_GetRechargeAmount,
          Handler.log_GetPropertiesUsedAmount, Handler.log_GetCosts, hw, hp, storeCalls] at hcall
    | ok req =>
      have hord := spec.ParseUserCostsAmountReq_ordered c req hp s e
      simp only [List.mem_cons, List.mem_singleton, List.not_mem_nil, or_false] at hh
      rcases hh with rfl | rfl | rfl | rfl <;>
        simp only [Handler.log_GetConsumptionAmount, Handler.log_GetRechargeAmount,
          Handler.log_GetPropertiesUsedAmount, Handler.log_GetCosts, hw, hp] at hcall <;>
        (repeat' split at hcall) <;>
        simp_all [storeCalls, dao.Call.timeRange]
  · intro s e hs he hlt
    obtain ⟨err, hp⟩ := spec.ParseUserCostsAmountReq_rejects c s e hs he hlt
    simp only [List.mem_cons, List.mem_singleton, List.not_mem_nil, or_false] at hh
    rcases hh with rfl | rfl | rfl | rfl <;>
      simp [Handler.log_GetConsumptionAmount, Handler.log_GetRechargeAmount,
        Handler.log_GetPropertiesUsedAmount, Handler.log_GetCosts, hw, hp, storeCalls, responses]

/-- C8, at a sample request: start 5 is later than end 2 in a `GetCosts` request;
it is answered with 400 and the store is not reached. -/
theorem time_range_ordered_at_store_witness :
    Handler.GetCosts ∈ [Handler.GetConsumptionAmount, Handler.GetRechargeAmount,
      Handler.GetPropertiesUsedAmount, Handler.GetCosts] ∧
    ((∀ call ∈ storeCalls (Handler.log .GetCosts (sampleWorld none none none 7).withSpecParser
        (sampleContext "alice" (.instant 5) (.instant 2))), ∀ s e,
      call.timeRange = some (some s, some e) → s ≤ e) ∧
    (∀ s e, (sampleContext "alice" (.instant 5) (.instant 2)).StartTime = .instant s →
      (sampleContext "alice" (.instant 5) (.instant 2)).EndTime = .instant e → e < s →
      (∃ obj, responses (Handler.log .GetCosts (sampleWorld none none none 7).withSpecParser
        (sampleContext "alice" (.instant 5) (.instant 2))) = [(http.StatusBadRequest, obj)]) ∧
      storeCalls (Handler.log .GetCosts (sampleWorld none none none 7).withSpecParser
        (sampleContext "alice" (.instant 5) (.instant 2))) = [])) ∧
    responses (Handler.log .GetCosts (sampleWorld none none none 7).withSpecParser
        (sampleContext "alice" (.instant 5) (.instant 2))) =
      [(400, .H [("error", .string "failed to parse user hour costs amount request: timeRange")])] ∧
    storeCalls (Handler.log .GetCosts (sampleWorld none none none 7).withSpecParser
        (sampleContext "alice" (.instant 1) (.instant 2))) = [.GetCosts "alice" (some 1) (some 2)] :=
  ⟨by decide, time_range_ordered_at_store .GetCosts (by decide) _ _, by decide, by decide⟩

/-- A log that passes the scan `storeAfterAuth` has a successful authentication
check before each of its store calls. -/
theorem storeAfterAuth_sound (log : List Event) (hscan : storeAfterAuth log = true) :
    ∀ before ev after, log = before ++ ev :: after → ev.isStoreCall = true →
      ∃ a ∈ before, a.isAuthSuccess = true := by
  induction log with
  | nil => intro before ev after hsplit; simp at hsplit
  | cons x rest ih =>
    intro before ev after hsplit hstore
    cases before with
    | nil =>
      simp only [List.nil_append, List.cons.injEq] at hsplit
      obtain ⟨rfl, -⟩ := hsplit
      cases x <;> simp_all [storeAfterAuth, Event.isStoreCall, Event.isAuthSuccess]
    | cons b before =>
      simp only [List.cons_append, List.cons.injEq] at hsplit
      obtain ⟨rfl, hrest⟩ := hsplit
      simp only [storeAfterAuth, Bool.or_eq_true, Bool.and_eq_true] at hscan
      rcases hscan with hauth | ⟨-, hscan⟩
      · exact ⟨x, List.mem_cons_self _ _, hauth⟩
      · obtain ⟨a, ha, hok⟩ := ih hscan before ev after hrest hstore
        exact ⟨a, List.mem_cons_of_mem _ ha, hok⟩

/-- Every handler log passes the scan `storeAfterAuth` and holds at most one
store call. -/
theorem Handler.log_scan (h : Handler) (w : World) (c : gin.Context) :
    (storeCalls (h.log w c)).length ≤ 1 ∧ storeAfterAuth (h.log w c) = true := by
  cases h <;>
    simp only [Handler.log_GetBillingHistoryNamespaceList, Handler.log_GetProperties,
      Handler.log_GetConsumptionAmount, Handler.log_GetRechargeAmount,
      Handler.log_GetPropertiesUsedAmount, Handler.log_GetCosts] <;>
    (repeat' split) <;>
    simp_all [storeCalls, storeAfterAuth, Event.isStoreCall, Event.isAuthSuccess]

/-- C9: in each of the six handlers, whatever parsing, authentication and the
store return, at most one store operation is invoked, at most once, and a store
call is only made after an authentication check that returned success. -/
theorem store_called_at_most_once_after_auth (h : Handler) (w : World) (c : gin.Context) :
    (storeCalls (h.log w c)).length ≤ 1 ∧
    ∀ before ev after, h.log w c = before ++ ev :: after → ev.isStoreCall = true →
      ∃ a ∈ before, a.isAuthSuccess = true :=
  ⟨(Handler.log_scan h w c).1, storeAfterAuth_sound _ (Handler.log_scan h w c).2⟩

/-- C10: in `GetCosts`, for a request that parses, when its credential
authenticates the store is asked once, for the owner of that credential
(`req.Auth.Owner`) with exactly the request's start and end time; and a second
parsed request with the same credential and time range, whatever its `Owner`
field, gives the same store calls and the same responses. -/
theorem GetCosts_ignores_owner_field (w : World) (c : gin.Context)
    (req : helper.UserCostsAmountReq)
    (hparse : w.ParseUserCostsAmountReq c = .ok req) :
    (w.Authenticate req.Auth = none →
      storeCalls (Handler.log .GetCosts w c) =
        [.GetCosts req.Auth.Owner req.TimeRange.StartTime req.TimeRange.EndTime]) ∧
    ∀ c2 req2, w.ParseUserCostsAmountReq c2 = .ok req2 →
      req2.Auth = req.Auth → req2.TimeRange = req.TimeRange →
      storeCalls (Handler.log .GetCosts w c2) = storeCalls (Handler.log .GetCosts w c) ∧
      responses (Handler.log .GetCosts w c2) = responses (Handler.log .GetCosts w c) := by
  constructor
  · intro hauth
    simp only [Handler.log_GetCosts, hparse, hauth]
    split <;> simp [storeCalls]
  · intro c2 req2 hparse2 hsame htime
    simp only [Handler.log_GetCosts, hparse, hparse2, hsame, htime]
    constructor <;> simp [storeCalls, responses]

/-- C10, at a sample request: alice's credential with requested owner bob, and the
same request with requested owner carol. -/
theorem GetCosts_ignores_owner_field_witness :
    (sampleWorld none none none 7).ParseUserCostsAmountReq
        (sampleContext "bob" (.instant 1) (.instant 2)) =
      .ok ⟨⟨"alice", "token"⟩, "bob", ⟨some 1, some 2⟩⟩ ∧
    storeCalls (Handler.log .GetCosts (sampleWorld none none none 7)
        (sampleContext "bob" (.instant 1) (.instant 2))) = [.GetCosts "alice" (some 1) (some 2)] ∧
    storeCalls (Handler.log .GetCosts (sampleWorld none none none 7)
        (sampleContext "carol" (.instant 1) (.instant 2))) =
      storeCalls (Handler.log .GetCosts (sampleWorld none none none 7)
        (sampleContext "bob" (.instant 1) (.instant 2))) ∧
    responses (Handler.log .GetCosts (sampleWorld none none none 7)
        (sampleContext "carol" (.instant 1) (.instant 2))) =
      responses (Handler.log .GetCosts (sampleWorld none none none 7)
        (sampleContext "bob" (.instant 1) (.instant 2))) :=
  ⟨by decide,
    (GetCosts_ignores_owner_field (sampleWorld none none none 7)
      (sampleContext "bob" (.instant 1) (.instant 2))
      ⟨⟨"alice", "token"⟩, "bob", ⟨some 1, some 2⟩⟩ (by decide)).1 (by decide),
    (GetCosts_ignores_owner_field (sampleWorld none none none 7)
      (sampleContext "bob" (.instant 1) (.instant 2))
      ⟨⟨"alice", "token"⟩, "bob", ⟨some 1, some 2⟩⟩ (by decide)).2
      (sampleContext "carol" (.instant 1) (.instant 2))
      ⟨⟨"alice", "token"⟩, "carol", ⟨some 1, some 2⟩⟩ (by decide) (by decide) (by decide)⟩
